import Mathlib

/-!
Shallow embedding of the multi-agent email triage system.

The embedding models, from the TypeScript source:
  * the data model (`Email`, `AgentDecision`, `TriageResult`),
  * the lenient labeled-line reply parsing shared by the four evaluator
    agents (`parseAgentResponse`), including the regex searches
    (`scanFor`, `tryLabel`, the capture functions),
  * each evaluator's `evaluate` with its catch-block degraded decision,
  * the supervisor (`makeRoutingDecision`, `resolveConflict`,
    `determinePriority`, `createTriageResult`, `triageWithDecisions`,
    `triageEmail`),
  * the batch runner loop (`processBatch`, `runPipeline`).

External LLM calls are modelled by their observable outcome: an
`Option (List Char)` that is `none` when the call throws and
`some content` when it returns reply text.  Reply text is represented
as `List Char`; JavaScript regex searches are modelled as leftmost-match
scans over the character list.
-/

namespace EmailTriage

/-- Priority levels, the `'low' | 'medium' | 'high' | 'urgent'` union type. -/
inductive Priority where
  | low
  | medium
  | high
  | urgent
deriving DecidableEq

/-- The `Email` record from `types.ts`.  `from`/`to` are keywords in Lean and
are renamed; the optional `priority`/`category` fields are carried but unused
by triage.  `timestamp` is an abstract instant. -/
structure Email where
  id : String
  fromAddr : String
  toAddr : String
  subject : String
  body : String
  timestamp : Nat
  priority : Option Priority
  category : Option String
deriving DecidableEq

/-- The `AgentDecision` record from `types.ts`; `suggestedActions` and
`escalate` are optional fields (`none` models `undefined`). -/
structure AgentDecision where
  shouldHandle : Bool
  confidence : Int
  reasoning : String
  suggestedActions : Option (List String)
  escalate : Option Bool
deriving DecidableEq

/-- The `TriageResult` record from `types.ts`. -/
structure TriageResult where
  emailId : String
  category : String
  priority : Priority
  assignedAgent : String
  summary : String
  suggestedActions : List String
  requiresHumanReview : Bool
deriving DecidableEq

/-! ### Reply parsing (the regex searches of the evaluator agents) -/

/-- `startsWith pat s` holds when `pat` is an initial segment of `s`
(literal regex text matching at one position). -/
def startsWith : List Char → List Char → Bool
  | [], _ => true
  | _ :: _, [] => false
  | p :: ps, c :: cs => p == c && startsWith ps cs

/-- `containsSub pat s` models JavaScript `s.includes(pat)`. -/
def containsSub (pat : List Char) : List Char → Bool
  | [] => pat.isEmpty
  | c :: rest => startsWith pat (c :: rest) || containsSub pat rest

/-- Leftmost-match search: try the pattern at every start position in turn,
exactly as a JavaScript regex `String.match` does. -/
def scanFor {α : Type} (attempt : List Char → Option α) : List Char → Option α
  | [] => attempt []
  | c :: rest =>
    match attempt (c :: rest) with
    | some a => some a
    | none => scanFor attempt rest

/-- Match a literal label at the current position then run the capture on the
remainder, e.g. the `CONFIDENCE: (\d+)` pattern at one start position. -/
def tryLabel {α : Type} (label : List Char) (cap : List Char → Option α)
    (s : List Char) : Option α :=
  if startsWith label s then cap (List.drop label.length s) else none

/-- Decimal value of a digit run, the effect of `parseInt` on the `(\d+)`
capture. -/
def natOfDigits (ds : List Char) : Nat :=
  ds.foldl (fun acc c => acc * 10 + (c.toNat - 48)) 0

/-- Capture for `(\d+)`: a maximal non-empty digit run. -/
def digitsCap (r : List Char) : Option Nat :=
  let ds := r.takeWhile Char.isDigit
  if ds.isEmpty then none else some (natOfDigits ds)

/-- Capture for `(.+?)(?=\n|$)` without the `s` flag: the rest of the current
line, which must be non-empty. -/
def lineCap (r : List Char) : Option (List Char) :=
  let line := r.takeWhile (fun c => !(c == '\n'))
  if line.isEmpty then none else some line

/-- Capture for the `(true|false)` alternation. -/
def boolCap (r : List Char) : Option Bool :=
  if startsWith "true".data r then some true
  else if startsWith "false".data r then some false
  else none

/-- JavaScript `\w`, i.e. `[A-Za-z0-9_]`. -/
def wordChar (c : Char) : Bool := c.isAlpha || c.isDigit || c == '_'

/-- Capture for `(\w+)`: a maximal non-empty word-character run. -/
def wordCap (r : List Char) : Option (List Char) :=
  let w := r.takeWhile wordChar
  if w.isEmpty then none else some w

/-- Capture for the `(low|medium|high|urgent)` alternation. -/
def priorityCap (r : List Char) : Option Priority :=
  if startsWith "low".data r then some Priority.low
  else if startsWith "medium".data r then some Priority.medium
  else if startsWith "high".data r then some Priority.high
  else if startsWith "urgent".data r then some Priority.urgent
  else none

/-- Capture for `(.+?)(?=\nESCALATE|$)` with the `s` flag: the shortest
non-empty run after which either the string ends or `stop` follows. -/
def lazyCapUntil (stop : List Char) : List Char → Option (List Char)
  | [] => none
  | c :: rest =>
    if rest.isEmpty || startsWith stop rest then some [c]
    else
      match lazyCapUntil stop rest with
      | some cs => some (c :: cs)
      | none => none

/-- The ASCII whitespace trimmed by `String.prototype.trim` (the JS method
also trims rarer Unicode whitespace, which no claim depends on). -/
def jsSpace (c : Char) : Bool := c == ' ' || c == '\t' || c == '\n' || c == '\r'

/-- JavaScript `trim`: drop whitespace from both ends. -/
def trimChars (s : List Char) : List Char :=
  ((s.dropWhile jsSpace).reverse.dropWhile jsSpace).reverse

/-- JavaScript `split('\n')` on character lists. -/
def splitNL : List Char → List (List Char)
  | [] => [[]]
  | c :: rest =>
    if c == '\n' then [] :: splitNL rest
    else
      match splitNL rest with
      | [] => [[c]]
      | g :: gs => (c :: g) :: gs

/-- The reply parsing block shared verbatim by the CustomerSupport, Sales, HR
and SpamFilter agents:
`shouldHandle` from `content.includes('SHOULD_HANDLE: true')`,
`confidence` from `/CONFIDENCE: (\d+)/` with default `50`,
`reasoning` from `/REASONING: (.+?)(?=\n|$)/` (trimmed) with default
`"Analysis completed"`,
`escalate` from `/ESCALATE: (true|false)/` with default `false`, and
`suggestedActions` from `/SUGGESTED_ACTIONS: (.+?)(?=\nESCALATE|$)/s`
split on newlines, trimmed and filtered, with default `[]`. -/
def parseAgentResponse (content : List Char) : AgentDecision :=
  let sh := containsSub "SHOULD_HANDLE: true".data content
  let conf : Int :=
    match scanFor (tryLabel "CONFIDENCE: ".data digitsCap) content with
    | some n => (n : Int)
    | none => 50
  let reason : String :=
    match scanFor (tryLabel "REASONING: ".data lineCap) content with
    | some r => String.mk (trimChars r)
    | none => "Analysis completed"
  let esc : Bool :=
    match scanFor (tryLabel "ESCALATE: ".data boolCap) content with
    | some b => b
    | none => false
  let acts : List String :=
    match scanFor (tryLabel "SUGGESTED_ACTIONS: ".data
        (lazyCapUntil "\nESCALATE".data)) content with
    | some cap =>
      (((splitNL cap).map trimChars).filter (fun a => 0 < a.length)).map String.mk
    | none => []
  { shouldHandle := sh
    confidence := conf
    reasoning := reason
    suggestedActions := some acts
    escalate := some esc }

/-! ### Evaluators -/

/-- The four evaluator agents. -/
inductive AgentName where
  | CustomerSupport
  | Sales
  | HR
  | SpamFilter
deriving DecidableEq

/-- One evaluator call: `some content` is a reply from the external service,
`none` is a thrown call.  On a reply the shared parsing block runs; on a
throw the agent's catch block returns its degraded decision, whose `escalate`
is `true` in `customerSupportAgent.ts` and `false` in the other three. -/
def evaluate (agent : AgentName) (reply : Option (List Char)) : AgentDecision :=
  match reply with
  | some content => parseAgentResponse content
  | none =>
    match agent with
    | AgentName.CustomerSupport =>
      { shouldHandle := false, confidence := 0
        reasoning := "Error occurred during evaluation"
        suggestedActions := none, escalate := some true }
    | _ =>
      { shouldHandle := false, confidence := 0
        reasoning := "Error occurred during evaluation"
        suggestedActions := none, escalate := some false }

/-! ### Supervisor -/

/-- The willing-agent filter: `decision.shouldHandle && decision.confidence > 50`. -/
def willingPred (p : String × AgentDecision) : Bool :=
  p.2.shouldHandle && decide (50 < p.2.confidence)

/-- The willing set of a decision record, in insertion order. -/
def willingOf (decisions : List (String × AgentDecision)) :
    List (String × AgentDecision) :=
  decisions.filter willingPred

/-- Ordering used by `sort((a, b) => b.confidence - a.confidence)`:
descending confidence. -/
def byConfDesc (p q : String × AgentDecision) : Prop :=
  q.2.confidence ≤ p.2.confidence

instance : DecidableRel byConfDesc :=
  fun p q => inferInstanceAs (Decidable (q.2.confidence ≤ p.2.confidence))

instance : IsTotal (String × AgentDecision) byConfDesc :=
  ⟨fun p q => le_total q.2.confidence p.2.confidence⟩

instance : IsTrans (String × AgentDecision) byConfDesc :=
  ⟨fun _ _ _ h1 h2 => le_trans h2 h1⟩

/-- JavaScript `Array.prototype.sort` is stable; stable descending sort is
insertion sort with `byConfDesc`. -/
def sortByConfDesc (l : List (String × AgentDecision)) :
    List (String × AgentDecision) :=
  List.insertionSort byConfDesc l

/-- `SupervisorAgent.determinePriority`: the fixed priority ladder. -/
def determinePriority (d : AgentDecision) : Priority :=
  if d.escalate.getD false then Priority.urgent
  else if 90 < d.confidence then Priority.high
  else if 70 < d.confidence then Priority.medium
  else Priority.low

/-- `SupervisorAgent.createTriageResult`.  The record lookup
`state.agentDecisions[assignedAgent]` becomes an association-list lookup;
the JS falsy checks `assignedDecision?.reasoning || default` (an empty
string is falsy) and `assignedDecision?.suggestedActions || default`
(an array, even empty, is truthy) are modelled field by field. -/
def createTriageResult (email : Email) (decisions : List (String × AgentDecision))
    (category : String) (priority : Priority) (assignedAgent : String)
    (requiresHumanReview : Bool) : TriageResult :=
  let assignedDecision :=
    (decisions.find? (fun p => p.1 == assignedAgent)).map Prod.snd
  { emailId := email.id
    category := category
    priority := priority
    assignedAgent := assignedAgent
    summary :=
      match assignedDecision with
      | some d =>
        if d.reasoning == "" then "Email categorized as " ++ category
        else d.reasoning
      | none => "Email categorized as " ++ category
    suggestedActions :=
      match assignedDecision.bind AgentDecision.suggestedActions with
      | some l => l
      | none => ["Route to " ++ assignedAgent ++ " team"]
    requiresHumanReview := requiresHumanReview }

/-- Placeholder for `willingAgents[0]` on an empty list; unreachable from
`makeRoutingDecision`, which only calls `resolveConflict` with at least two
willing agents. -/
def fallbackPair : String × AgentDecision :=
  ("", { shouldHandle := false, confidence := 0, reasoning := ""
         suggestedActions := none, escalate := none })

/-- `SupervisorAgent.resolveConflict`: on a reply, extract
`ASSIGNED_AGENT: (\w+)` and `PRIORITY: (low|medium|high|urgent)` with
fallbacks `willingAgents[0][0]` and `'medium'`; on a thrown call, fall back
to the highest-confidence willing agent at `'medium'`.  (The `REASONING:`
capture of the source is only logged to the console and does not reach the
`TriageResult`.) -/
def resolveConflict (email : Email) (decisions : List (String × AgentDecision))
    (willingAgents : List (String × AgentDecision))
    (reply : Option (List Char)) : TriageResult :=
  match reply with
  | some content =>
    let agentMatch := scanFor (tryLabel "ASSIGNED_AGENT: ".data wordCap) content
    let priorityMatch :=
      scanFor (tryLabel "PRIORITY: ".data priorityCap) content
    let assignedAgent :=
      match agentMatch with
      | some w => String.mk w
      | none => (willingAgents.headD fallbackPair).1
    createTriageResult email decisions assignedAgent
      (priorityMatch.getD Priority.medium) assignedAgent false
  | none =>
    let fallbackAgent := (willingAgents.headD fallbackPair).1
    createTriageResult email decisions fallbackAgent Priority.medium
      fallbackAgent false

/-- `SupervisorAgent.makeRoutingDecision`: filter the willing agents, sort
them by descending confidence, then branch on how many there are. -/
def makeRoutingDecision (email : Email) (decisions : List (String × AgentDecision))
    (conflictReply : Option (List Char)) : TriageResult :=
  let willingAgents := sortByConfDesc (willingOf decisions)
  match willingAgents with
  | [] => createTriageResult email decisions "General" Priority.medium "General" true
  | [p] =>
    createTriageResult email decisions p.1 (determinePriority p.2) p.1
      (p.2.escalate.getD false)
  | _ => resolveConflict email decisions willingAgents conflictReply

/-- The decision record built in steps 1-2 of `triageEmail`, in JS object
insertion order. -/
def decideState (spamD csD salesD hrD : AgentDecision) :
    List (String × AgentDecision) :=
  [("SpamFilter", spamD), ("CustomerSupport", csD),
   ("Sales", salesD), ("HR", hrD)]

/-- `SupervisorAgent.triageEmail`, given the four evaluator decisions.
Returns the result together with the list of evaluators invoked, recorded at
the `await ...evaluate(email)` sites: only SpamFilter when the spam
short-circuit fires, all four otherwise. -/
def triageWithDecisions (email : Email) (spamD csD salesD hrD : AgentDecision)
    (conflictReply : Option (List Char)) : TriageResult × List String :=
  if spamD.shouldHandle = true ∧ 70 < spamD.confidence then
    (createTriageResult email [("SpamFilter", spamD)] "Spam/Low-Priority"
        Priority.low "SpamFilter" false,
     ["SpamFilter"])
  else
    (makeRoutingDecision email (decideState spamD csD salesD hrD) conflictReply,
     ["SpamFilter", "CustomerSupport", "Sales", "HR"])

/-- The five external call outcomes one triage run can consume. -/
structure LLMEnv where
  spamReply : Option (List Char)
  csReply : Option (List Char)
  salesReply : Option (List Char)
  hrReply : Option (List Char)
  conflictReply : Option (List Char)
deriving DecidableEq

/-- `SupervisorAgent.triageEmail` end to end: evaluate each agent on its
call outcome, then route. -/
def triageEmail (env : LLMEnv) (email : Email) : TriageResult × List String :=
  triageWithDecisions email
    (evaluate AgentName.SpamFilter env.spamReply)
    (evaluate AgentName.CustomerSupport env.csReply)
    (evaluate AgentName.Sales env.salesReply)
    (evaluate AgentName.HR env.hrReply)
    env.conflictReply

/-! ### Batch runner -/

/-- The `main` loop of `index.ts`: process emails in order; push the result
on success, log the email id and continue on a thrown failure.  Returns the
accumulated results and the ids of the emails whose processing threw. -/
def processBatch (step : Email → Except String TriageResult) :
    List Email → List TriageResult × List String
  | [] => ([], [])
  | e :: es =>
    let rest := processBatch step es
    match step e with
    | Except.ok r => (r :: rest.1, rest.2)
    | Except.error _ => (rest.1, e.id :: rest.2)

/-- The full pipeline under a fixed assignment of evaluator replies:
each email is triaged with the call outcomes `envOf` assigns to it. -/
def runPipeline (envOf : Email → LLMEnv) (emails : List Email) :
    List TriageResult :=
  (processBatch (fun e => Except.ok (triageEmail (envOf e) e).1) emails).1

/-! ### Helper lemmas -/

theorem startsWith_iff (pat s : List Char) :
    startsWith pat s = true ↔ ∃ t, s = pat ++ t := by
  induction pat generalizing s with
  | nil =>
    simp only [startsWith, List.nil_append]
    exact ⟨fun _ => ⟨s, rfl⟩, fun _ => trivial⟩
  | cons p ps ih =>
    cases s with
    | nil =>
      simp only [startsWith]
      constructor
      · intro h; exact absurd h (by simp)
      · rintro ⟨t, ht⟩; exact absurd ht (by simp)
    | cons c cs =>
      rw [startsWith, Bool.and_eq_true, beq_iff_eq, ih]
      constructor
      · rintro ⟨rfl, t, rfl⟩; exact ⟨t, rfl⟩
      · rintro ⟨t, ht⟩
        rw [List.cons_append] at ht
        injection ht with h1 h2
        exact ⟨h1.symm, t, h2⟩

theorem containsSub_iff (pat s : List Char) :
    containsSub pat s = true ↔ ∃ l r, s = l ++ pat ++ r := by
  induction s with
  | nil =>
    simp only [containsSub, List.isEmpty_iff]
    constructor
    · intro h; exact ⟨[], [], by simp [h]⟩
    · rintro ⟨l, r, h⟩
      rcases List.append_eq_nil.mp (List.append_eq_nil.mp h.symm).1 with ⟨_, h2⟩
      exact h2
  | cons c cs ih =>
    rw [containsSub, Bool.or_eq_true, startsWith_iff, ih]
    constructor
    · rintro (⟨t, ht⟩ | ⟨l, r, h⟩)
      · exact ⟨[], t, by simp [ht]⟩
      · exact ⟨c :: l, r, by simp [h]⟩
    · rintro ⟨l, r, h⟩
      cases l with
      | nil => exact Or.inl ⟨r, by simpa using h⟩
      | cons x xs =>
        rw [List.cons_append, List.cons_append] at h
        injection h with _ h2
        exact Or.inr ⟨xs, r, h2⟩

theorem scanFor_tryLabel_none {α : Type} (label : List Char)
    (cap : List Char → Option α) (s : List Char)
    (h : containsSub label s = false) :
    scanFor (tryLabel label cap) s = none := by
  induction s with
  | nil =>
    have hsw : startsWith label [] = false := by
      cases label with
      | nil => simp [containsSub, List.isEmpty] at h
      | cons p ps => rfl
    simp [scanFor, tryLabel, hsw]
  | cons c rest ih =>
    rw [containsSub, Bool.or_eq_false_iff] at h
    rw [scanFor, tryLabel, if_neg (by simp [h.1]), ih h.2]

theorem not_containsSub_of_not_exists (pat s : List Char)
    (h : ¬ ∃ l r, s = l ++ pat ++ r) : containsSub pat s = false := by
  cases hc : containsSub pat s with
  | false => rfl
  | true => exact absurd ((containsSub_iff pat s).mp hc) h

theorem sortByConfDesc_perm (l : List (String × AgentDecision)) :
    List.Perm (sortByConfDesc l) l :=
  List.perm_insertionSort byConfDesc l

theorem sortByConfDesc_sorted (l : List (String × AgentDecision)) :
    List.Sorted byConfDesc (sortByConfDesc l) :=
  List.sorted_insertionSort byConfDesc l

theorem mem_of_mem_sortByConfDesc {l : List (String × AgentDecision)}
    {p : String × AgentDecision} (h : p ∈ sortByConfDesc l) : p ∈ l :=
  (sortByConfDesc_perm l).mem_iff.mp h

/-- The head of the sorted willing list dominates every willing agent's
confidence. -/
theorem sortByConfDesc_head_max {l : List (String × AgentDecision)}
    {a : String × AgentDecision} {t : List (String × AgentDecision)}
    (hs : sortByConfDesc l = a :: t) :
    ∀ q ∈ l, q.2.confidence ≤ a.2.confidence := by
  intro q hq
  have hq' : q ∈ a :: t := hs ▸ (sortByConfDesc_perm l).mem_iff.mpr hq
  rcases List.mem_cons.mp hq' with rfl | hq''
  · exact le_refl _
  · have hsorted := sortByConfDesc_sorted l
    rw [hs] at hsorted
    exact List.rel_of_sorted_cons hsorted q hq''

theorem unwilling_pred (name : String) (d : AgentDecision)
    (h : d.shouldHandle = false ∨ d.confidence ≤ 50) :
    willingPred (name, d) = false := by
  rcases h with h | h
  · simp [willingPred, h]
  · simp [willingPred, decide_eq_false (not_lt.mpr h)]

/-! ### Concrete fixtures used by witnesses and counterexamples -/

def wEmail : Email :=
  { id := "email-001", fromAddr := "sarah@techcorp.com", toAddr := "support@co.com"
    subject := "Payment issue", body := "Gateway down", timestamp := 0
    priority := none, category := none }

def dUnwilling : AgentDecision :=
  { shouldHandle := false, confidence := 0, reasoning := "not mine"
    suggestedActions := some [], escalate := some false }

def dWilling80 : AgentDecision :=
  { shouldHandle := true, confidence := 80, reasoning := "support issue"
    suggestedActions := some ["open ticket"], escalate := some false }

def dWilling60 : AgentDecision :=
  { shouldHandle := true, confidence := 60, reasoning := "maybe a lead"
    suggestedActions := some [], escalate := some false }

def dWilling95 : AgentDecision :=
  { shouldHandle := true, confidence := 95, reasoning := "urgent outage"
    suggestedActions := some [], escalate := some false }

def dSpam60 : AgentDecision :=
  { shouldHandle := true, confidence := 60, reasoning := "promotional"
    suggestedActions := some [], escalate := some false }

def wSpamEnv : LLMEnv :=
  { spamReply := some "SHOULD_HANDLE: true\nCONFIDENCE: 92\nREASONING: newsletter blast".data
    csReply := none, salesReply := none, hrReply := none, conflictReply := none }

/-! ### Claims -/

/-- C1: if the SpamFilter evaluator's decision has `shouldHandle = true` and
`confidence > 70`, `triageEmail` terminates immediately with category
`"Spam/Low-Priority"`, priority `low`, assigned agent `"SpamFilter"` and no
human review, and the CustomerSupport, Sales and HR evaluators are not
invoked. -/
theorem triage_spam_short_circuit (env : LLMEnv) (email : Email)
    (h1 : (evaluate AgentName.SpamFilter env.spamReply).shouldHandle = true)
    (h2 : 70 < (evaluate AgentName.SpamFilter env.spamReply).confidence) :
    (triageEmail env email).1.category = "Spam/Low-Priority" ∧
    (triageEmail env email).1.priority = Priority.low ∧
    (triageEmail env email).1.assignedAgent = "SpamFilter" ∧
    (triageEmail env email).1.requiresHumanReview = false ∧
    (triageEmail env email).2 = ["SpamFilter"] ∧
    "CustomerSupport" ∉ (triageEmail env email).2 ∧
    "Sales" ∉ (triageEmail env email).2 ∧
    "HR" ∉ (triageEmail env email).2 := by
  unfold triageEmail triageWithDecisions
  rw [if_pos ⟨h1, h2⟩]
  refine ⟨rfl, rfl, rfl, rfl, rfl, ?_, ?_, ?_⟩ <;> simp

/-- Witness for C1 at a concrete spam reply. -/
theorem triage_spam_short_circuit_wit :
    (triageEmail wSpamEnv wEmail).1.category = "Spam/Low-Priority" ∧
    (triageEmail wSpamEnv wEmail).1.priority = Priority.low ∧
    (triageEmail wSpamEnv wEmail).1.assignedAgent = "SpamFilter" ∧
    (triageEmail wSpamEnv wEmail).1.requiresHumanReview = false ∧
    (triageEmail wSpamEnv wEmail).2 = ["SpamFilter"] ∧
    "CustomerSupport" ∉ (triageEmail wSpamEnv wEmail).2 ∧
    "Sales" ∉ (triageEmail wSpamEnv wEmail).2 ∧
    "HR" ∉ (triageEmail wSpamEnv wEmail).2 :=
  triage_spam_short_circuit wSpamEnv wEmail (by decide) (by decide)

/-- C2: when exactly one agent is willing, the result is assigned to that
agent and its priority follows the fixed ladder (`escalate` first, then the
`>90` and `>70` confidence cuts); in particular confidence 95 without
escalation resolves to `high` and escalation with confidence 10 resolves to
`urgent`. -/
theorem routing_single_willing (email : Email)
    (decisions : List (String × AgentDecision)) (reply : Option (List Char))
    (name : String) (d : AgentDecision)
    (h : willingOf decisions = [(name, d)]) :
    (makeRoutingDecision email decisions reply).assignedAgent = name ∧
    (makeRoutingDecision email decisions reply).priority =
      (if d.escalate.getD false then Priority.urgent
       else if 90 < d.confidence then Priority.high
       else if 70 < d.confidence then Priority.medium
       else Priority.low) ∧
    (∀ d2 : AgentDecision, d2.escalate = some false → d2.confidence = 95 →
      determinePriority d2 = Priority.high) ∧
    (∀ d2 : AgentDecision, d2.escalate = some true → d2.confidence = 10 →
      determinePriority d2 = Priority.urgent) := by
  unfold makeRoutingDecision
  rw [h]
  refine ⟨rfl, rfl, ?_, ?_⟩
  · intro d2 he hc
    simp [determinePriority, he, hc]
  · intro d2 he hc
    simp [determinePriority, he, hc]

/-- Witness for C2: a lone CustomerSupport agent at confidence 95 without
escalation gets priority `high`, and the `urgent` clause fires on an
escalating decision of confidence 10. -/
theorem routing_single_willing_wit :
    (makeRoutingDecision wEmail [("CustomerSupport", dWilling95)] none).assignedAgent =
      "CustomerSupport" ∧
    (makeRoutingDecision wEmail [("CustomerSupport", dWilling95)] none).priority =
      Priority.high ∧
    determinePriority
      { shouldHandle := true, confidence := 10, reasoning := ""
        suggestedActions := none, escalate := some true } = Priority.urgent := by
  have h := routing_single_willing wEmail [("CustomerSupport", dWilling95)] none
    "CustomerSupport" dWilling95 (by decide)
  exact ⟨h.1, h.2.1.trans (by decide), h.2.2.2 _ rfl rfl⟩

/-- C3: when every evaluator's decision is unwilling (`shouldHandle = false`
or `confidence ≤ 50`), the result is the General fallback with priority
`medium` and human review required. -/
theorem triage_no_willing_general (email : Email)
    (spamD csD salesD hrD : AgentDecision) (reply : Option (List Char))
    (h1 : spamD.shouldHandle = false ∨ spamD.confidence ≤ 50)
    (h2 : csD.shouldHandle = false ∨ csD.confidence ≤ 50)
    (h3 : salesD.shouldHandle = false ∨ salesD.confidence ≤ 50)
    (h4 : hrD.shouldHandle = false ∨ hrD.confidence ≤ 50) :
    (triageWithDecisions email spamD csD salesD hrD reply).1.category = "General" ∧
    (triageWithDecisions email spamD csD salesD hrD reply).1.priority =
      Priority.medium ∧
    (triageWithDecisions email spamD csD salesD hrD reply).1.assignedAgent =
      "General" ∧
    (triageWithDecisions email spamD csD salesD hrD reply).1.requiresHumanReview =
      true := by
  have hnot : ¬ (spamD.shouldHandle = true ∧ 70 < spamD.confidence) := by
    rintro ⟨hs, hc⟩
    rcases h1 with h | h
    · rw [h] at hs; exact Bool.noConfusion hs
    · omega
  have hfilter : willingOf (decideState spamD csD salesD hrD) = [] := by
    simp [willingOf, decideState, List.filter,
      unwilling_pred _ _ h1, unwilling_pred _ _ h2,
      unwilling_pred _ _ h3, unwilling_pred _ _ h4]
  unfold triageWithDecisions
  rw [if_neg hnot]
  unfold makeRoutingDecision
  rw [hfilter]
  exact ⟨rfl, rfl, rfl, rfl⟩

/-- Witness for C3 at four concrete unwilling decisions. -/
theorem triage_no_willing_general_wit :
    (triageWithDecisions wEmail dUnwilling dUnwilling dUnwilling dUnwilling
      none).1.category = "General" ∧
    (triageWithDecisions wEmail dUnwilling dUnwilling dUnwilling dUnwilling
      none).1.priority = Priority.medium ∧
    (triageWithDecisions wEmail dUnwilling dUnwilling dUnwilling dUnwilling
      none).1.assignedAgent = "General" ∧
    (triageWithDecisions wEmail dUnwilling dUnwilling dUnwilling dUnwilling
      none).1.requiresHumanReview = true :=
  triage_no_willing_general wEmail dUnwilling dUnwilling dUnwilling dUnwilling
    none (Or.inl rfl) (Or.inl rfl) (Or.inl rfl) (Or.inl rfl)

theorem createTriageResult_assignedAgent (email : Email)
    (decisions : List (String × AgentDecision)) (cat : String) (pri : Priority)
    (agent : String) (review : Bool) :
    (createTriageResult email decisions cat pri agent review).assignedAgent =
      agent := rfl

theorem createTriageResult_priority (email : Email)
    (decisions : List (String × AgentDecision)) (cat : String) (pri : Priority)
    (agent : String) (review : Bool) :
    (createTriageResult email decisions cat pri agent review).priority = pri := rfl

theorem createTriageResult_review (email : Email)
    (decisions : List (String × AgentDecision)) (cat : String) (pri : Priority)
    (agent : String) (review : Bool) :
    (createTriageResult email decisions cat pri agent review).requiresHumanReview =
      review := rfl

theorem mem_decideState_name {spamD csD salesD hrD : AgentDecision}
    {p : String × AgentDecision} (hp : p ∈ decideState spamD csD salesD hrD) :
    p.1 ∈ (["SpamFilter", "CustomerSupport", "Sales", "HR"] : List String) := by
  simp only [decideState, List.mem_cons, List.not_mem_nil, or_false] at hp
  rcases hp with rfl | rfl | rfl | rfl <;> simp

theorem mem_four_five {s : String}
    (h : s ∈ (["SpamFilter", "CustomerSupport", "Sales", "HR"] : List String)) :
    s ∈ (["SpamFilter", "CustomerSupport", "Sales", "HR", "General"] :
      List String) := by
  simp only [List.mem_cons, List.not_mem_nil, or_false] at h ⊢
  tauto

theorem makeRoutingDecision_conflict {email : Email}
    {decisions : List (String × AgentDecision)} {reply : Option (List Char)}
    {a b : String × AgentDecision} {t : List (String × AgentDecision)}
    (hs : sortByConfDesc (willingOf decisions) = a :: b :: t) :
    makeRoutingDecision email decisions reply =
      resolveConflict email decisions (a :: b :: t) reply := by
  unfold makeRoutingDecision
  rw [hs]

/-- C4: with two or more willing agents, a failed or unparseable
conflict-resolution call falls back to a willing agent of maximal confidence,
at priority `medium` with no human review. -/
theorem conflict_failure_fallback (email : Email)
    (decisions : List (String × AgentDecision)) (reply : Option (List Char))
    (hlen : 2 ≤ (willingOf decisions).length)
    (hfail : reply = none ∨ ∃ c, reply = some c ∧
      (¬ ∃ l r, c = l ++ "ASSIGNED_AGENT: ".data ++ r) ∧
      (¬ ∃ l r, c = l ++ "PRIORITY: ".data ++ r)) :
    ∃ p, p ∈ willingOf decisions ∧
      (makeRoutingDecision email decisions reply).assignedAgent = p.1 ∧
      (∀ q ∈ willingOf decisions, q.2.confidence ≤ p.2.confidence) ∧
      (makeRoutingDecision email decisions reply).priority = Priority.medium ∧
      (makeRoutingDecision email decisions reply).requiresHumanReview = false := by
  rcases hs : sortByConfDesc (willingOf decisions) with _ | ⟨a, _ | ⟨b, t⟩⟩
  · have hl := (sortByConfDesc_perm (willingOf decisions)).length_eq
    rw [hs] at hl
    simp at hl
    omega
  · have hl := (sortByConfDesc_perm (willingOf decisions)).length_eq
    rw [hs] at hl
    simp at hl
    omega
  · have hmem : a ∈ willingOf decisions := by
      apply mem_of_mem_sortByConfDesc
      rw [hs]
      exact List.mem_cons_self a _
    have hmax := sortByConfDesc_head_max hs
    rw [makeRoutingDecision_conflict hs]
    rcases hfail with rfl | ⟨c, rfl, hA, hP⟩
    · exact ⟨a, hmem, rfl, hmax, rfl, rfl⟩
    · have hA' := scanFor_tryLabel_none "ASSIGNED_AGENT: ".data wordCap c
        (not_containsSub_of_not_exists _ _ hA)
      have hP' := scanFor_tryLabel_none "PRIORITY: ".data priorityCap c
        (not_containsSub_of_not_exists _ _ hP)
      refine ⟨a, hmem, ?_, hmax, ?_, ?_⟩ <;>
        simp only [resolveConflict, hA', hP', List.headD_cons,
          createTriageResult_assignedAgent, createTriageResult_priority,
          createTriageResult_review, Option.getD_none]

/-- Witness for C4: two willing agents, a thrown conflict-resolution call. -/
theorem conflict_failure_fallback_wit :
    ∃ p, p ∈ willingOf [("CustomerSupport", dWilling80), ("Sales", dWilling60)] ∧
      (makeRoutingDecision wEmail
        [("CustomerSupport", dWilling80), ("Sales", dWilling60)]
        none).assignedAgent = p.1 ∧
      (∀ q ∈ willingOf [("CustomerSupport", dWilling80), ("Sales", dWilling60)],
        q.2.confidence ≤ p.2.confidence) ∧
      (makeRoutingDecision wEmail
        [("CustomerSupport", dWilling80), ("Sales", dWilling60)]
        none).priority = Priority.medium ∧
      (makeRoutingDecision wEmail
        [("CustomerSupport", dWilling80), ("Sales", dWilling60)]
        none).requiresHumanReview = false :=
  conflict_failure_fallback wEmail
    [("CustomerSupport", dWilling80), ("Sales", dWilling60)] none
    (by decide) (Or.inl rfl)

/-- C5 (counterexample): a reply that cannot be parsed into the expected
fields does not produce the degraded decision the claim describes — the
CustomerSupport evaluator returns the lenient defaults `confidence = 50`,
`reasoning = "Analysis completed"`, `escalate = false`, not `confidence = 0`
with `escalate = true`. -/
theorem evaluate_unparseable_counterexample :
    (evaluate AgentName.CustomerSupport (some "garbage".data)).shouldHandle =
      false ∧
    (evaluate AgentName.CustomerSupport (some "garbage".data)).confidence = 50 ∧
    (evaluate AgentName.CustomerSupport (some "garbage".data)).reasoning =
      "Analysis completed" ∧
    (evaluate AgentName.CustomerSupport (some "garbage".data)).escalate =
      some false ∧
    ¬ (evaluate AgentName.CustomerSupport (some "garbage".data)).confidence =
      0 := by
  decide

/-- C5 (amended): only a thrown external call produces the degraded decision
(`shouldHandle = false`, `confidence = 0`, a reasoning string describing the
failure, `escalate = true` exactly for CustomerSupport); evaluation never
propagates the failure, and an unparseable reply instead yields the lenient
parse defaults (`confidence = 50`). -/
theorem evaluate_call_failure_degraded (agent : AgentName) :
    (evaluate agent none).shouldHandle = false ∧
    (evaluate agent none).confidence = 0 ∧
    (evaluate agent none).reasoning = "Error occurred during evaluation" ∧
    (evaluate agent none).escalate =
      some (decide (agent = AgentName.CustomerSupport)) ∧
    (evaluate agent (some "garbage".data)).confidence = 50 := by
  cases agent <;> exact ⟨rfl, rfl, rfl, rfl, by decide⟩

/-- C6 (counterexample): when two agents are willing and the
conflict-resolution reply names `ASSIGNED_AGENT: Legal`, the triage result's
assigned agent is `"Legal"`, which is neither an evaluator name nor a
`General`/`Manual` sentinel. -/
theorem conflict_agent_outside_set_counterexample :
    (triageWithDecisions wEmail dUnwilling dWilling80 dWilling60 dUnwilling
      (some "ASSIGNED_AGENT: Legal".data)).1.assignedAgent = "Legal" ∧
    (triageWithDecisions wEmail dUnwilling dWilling80 dWilling60 dUnwilling
      (some "ASSIGNED_AGENT: Legal".data)).1.assignedAgent ∉
      (["SpamFilter", "CustomerSupport", "Sales", "HR", "General", "Manual"] :
        List String) := by
  decide

/-- C6 (amended): on every path except a successful conflict-resolution agent
parse, the assigned agent is an evaluator name or `"General"` (the sentinel
`"Manual"` never occurs); consequently, whenever each parsed conflict agent
is an evaluator name, every triage result's assigned agent lies in that set. -/
theorem assigned_agent_in_known_set (email : Email)
    (spamD csD salesD hrD : AgentDecision) (reply : Option (List Char))
    (h : ∀ c w, reply = some c →
      scanFor (tryLabel "ASSIGNED_AGENT: ".data wordCap) c = some w →
      String.mk w ∈ (["SpamFilter", "CustomerSupport", "Sales", "HR"] :
        List String)) :
    (triageWithDecisions email spamD csD salesD hrD reply).1.assignedAgent ∈
      (["SpamFilter", "CustomerSupport", "Sales", "HR", "General"] :
        List String) := by
  unfold triageWithDecisions
  by_cases hc : spamD.shouldHandle = true ∧ 70 < spamD.confidence
  · rw [if_pos hc]
    simp [createTriageResult_assignedAgent]
  · rw [if_neg hc]
    have hw : ∀ p ∈ willingOf (decideState spamD csD salesD hrD),
        p.1 ∈ (["SpamFilter", "CustomerSupport", "Sales", "HR"] :
          List String) :=
      fun p hp => mem_decideState_name (List.mem_filter.mp hp).1
    rcases hs : sortByConfDesc (willingOf (decideState spamD csD salesD hrD))
      with _ | ⟨a, _ | ⟨b, t⟩⟩
    · unfold makeRoutingDecision
      rw [hs]
      simp [createTriageResult_assignedAgent]
    · have ha : a ∈ willingOf (decideState spamD csD salesD hrD) := by
        apply mem_of_mem_sortByConfDesc
        rw [hs]
        exact List.mem_cons_self a _
      unfold makeRoutingDecision
      rw [hs]
      simp only [createTriageResult_assignedAgent]
      exact mem_four_five (hw a ha)
    · have ha : a ∈ willingOf (decideState spamD csD salesD hrD) := by
        apply mem_of_mem_sortByConfDesc
        rw [hs]
        exact List.mem_cons_self a _
      rw [show (makeRoutingDecision email (decideState spamD csD salesD hrD)
            reply, ["SpamFilter", "CustomerSupport", "Sales", "HR"]).1 =
          makeRoutingDecision email (decideState spamD csD salesD hrD) reply
          from rfl,
        makeRoutingDecision_conflict hs]
      cases reply with
      | none =>
        simp only [resolveConflict, List.headD_cons,
          createTriageResult_assignedAgent]
        exact mem_four_five (hw a ha)
      | some c =>
        cases hm : scanFor (tryLabel "ASSIGNED_AGENT: ".data wordCap) c with
        | some w =>
          simp only [resolveConflict, hm, createTriageResult_assignedAgent]
          exact mem_four_five (h c w rfl hm)
        | none =>
          simp only [resolveConflict, hm, List.headD_cons,
            createTriageResult_assignedAgent]
          exact mem_four_five (hw a ha)

/-- Witness for the amended C6 with a thrown conflict call. -/
theorem assigned_agent_in_known_set_wit :
    (triageWithDecisions wEmail dUnwilling dWilling80 dWilling60 dUnwilling
      none).1.assignedAgent ∈
      (["SpamFilter", "CustomerSupport", "Sales", "HR", "General"] :
        List String) :=
  assigned_agent_in_known_set wEmail dUnwilling dWilling80 dWilling60
    dUnwilling none (fun _c _ hc _ => nomatch hc)

/-- C7: `shouldHandle` is true exactly when the literal substring
`"SHOULD_HANDLE: true"` occurs in the reply, and a reply in which a labeled
field is missing falls back to that field's default (`confidence = 50`,
`reasoning = "Analysis completed"`, `escalate = false`, empty action list). -/
theorem parse_reply_policy (content : List Char) :
    ((parseAgentResponse content).shouldHandle = true ↔
      ∃ l r, content = l ++ "SHOULD_HANDLE: true".data ++ r) ∧
    ((¬ ∃ l r, content = l ++ "CONFIDENCE: ".data ++ r) →
      (parseAgentResponse content).confidence = 50) ∧
    ((¬ ∃ l r, content = l ++ "REASONING: ".data ++ r) →
      (parseAgentResponse content).reasoning = "Analysis completed") ∧
    ((¬ ∃ l r, content = l ++ "ESCALATE: ".data ++ r) →
      (parseAgentResponse content).escalate = some false) ∧
    ((¬ ∃ l r, content = l ++ "SUGGESTED_ACTIONS: ".data ++ r) →
      (parseAgentResponse content).suggestedActions = some []) := by
  refine ⟨?_, ?_, ?_, ?_, ?_⟩
  · rw [show (parseAgentResponse content).shouldHandle =
        containsSub "SHOULD_HANDLE: true".data content from rfl]
    exact containsSub_iff _ _
  · intro h
    have hn := scanFor_tryLabel_none "CONFIDENCE: ".data digitsCap content
      (not_containsSub_of_not_exists _ _ h)
    simp [parseAgentResponse, hn]
  · intro h
    have hn := scanFor_tryLabel_none "REASONING: ".data lineCap content
      (not_containsSub_of_not_exists _ _ h)
    simp [parseAgentResponse, hn]
  · intro h
    have hn := scanFor_tryLabel_none "ESCALATE: ".data boolCap content
      (not_containsSub_of_not_exists _ _ h)
    simp [parseAgentResponse, hn]
  · intro h
    have hn := scanFor_tryLabel_none "SUGGESTED_ACTIONS: ".data
      (lazyCapUntil "\nESCALATE".data) content
      (not_containsSub_of_not_exists _ _ h)
    simp [parseAgentResponse, hn]

/-- Witness for C7 on a reply with no recognized label. -/
theorem parse_reply_policy_wit :
    (parseAgentResponse "hello".data).shouldHandle = false ∧
    (parseAgentResponse "hello".data).confidence = 50 ∧
    (parseAgentResponse "hello".data).reasoning = "Analysis completed" ∧
    (parseAgentResponse "hello".data).escalate = some false ∧
    (parseAgentResponse "hello".data).suggestedActions = some [] := by
  have h := parse_reply_policy "hello".data
  refine ⟨?_, h.2.1 ?_, h.2.2.1 ?_, h.2.2.2.1 ?_, h.2.2.2.2 ?_⟩
  · cases hb : (parseAgentResponse "hello".data).shouldHandle with
    | false => rfl
    | true =>
      exact absurd ((containsSub_iff _ _).mpr (h.1.mp hb)) (by decide)
  all_goals
    exact fun hex => absurd ((containsSub_iff _ _).mpr hex) (by decide)

/-- C8: a SpamFilter decision with `shouldHandle = true` and confidence in
`51..70` does not short-circuit, is a member of the willing set computed in
the Decide step (which ranges over all four recorded decisions), and with
the other three evaluators unwilling it is selected as the assigned agent
outside the spam short-circuit path. -/
theorem spam_in_decide_step (email : Email)
    (spamD csD salesD hrD : AgentDecision) (reply : Option (List Char))
    (h1 : spamD.shouldHandle = true) (h2 : 50 < spamD.confidence)
    (h3 : spamD.confidence ≤ 70) :
    ("SpamFilter", spamD) ∈ willingOf (decideState spamD csD salesD hrD) ∧
    (triageWithDecisions email spamD csD salesD hrD reply).2 =
      ["SpamFilter", "CustomerSupport", "Sales", "HR"] ∧
    (csD.shouldHandle = false ∨ csD.confidence ≤ 50 →
     salesD.shouldHandle = false ∨ salesD.confidence ≤ 50 →
     hrD.shouldHandle = false ∨ hrD.confidence ≤ 50 →
     (triageWithDecisions email spamD csD salesD hrD reply).1.assignedAgent =
       "SpamFilter") := by
  have hnot : ¬ (spamD.shouldHandle = true ∧ 70 < spamD.confidence) := by
    rintro ⟨_, hc⟩
    omega
  refine ⟨?_, ?_, ?_⟩
  · refine List.mem_filter.mpr ⟨by simp [decideState], ?_⟩
    simp [willingPred, h1, h2]
  · unfold triageWithDecisions
    rw [if_neg hnot]
  · intro hcs hsales hhr
    have hsp : willingPred ("SpamFilter", spamD) = true := by
      simp [willingPred, h1, h2]
    have hfilter : willingOf (decideState spamD csD salesD hrD) =
        [("SpamFilter", spamD)] := by
      simp [willingOf, decideState, List.filter, hsp,
        unwilling_pred _ _ hcs, unwilling_pred _ _ hsales,
        unwilling_pred _ _ hhr]
    unfold triageWithDecisions
    rw [if_neg hnot]
    unfold makeRoutingDecision
    rw [hfilter]
    rfl

/-- Witness for C8 with a 60%-confidence spam decision and unwilling others. -/
theorem spam_in_decide_step_wit :
    ("SpamFilter", dSpam60) ∈
      willingOf (decideState dSpam60 dUnwilling dUnwilling dUnwilling) ∧
    (triageWithDecisions wEmail dSpam60 dUnwilling dUnwilling dUnwilling
      none).2 = ["SpamFilter", "CustomerSupport", "Sales", "HR"] ∧
    (triageWithDecisions wEmail dSpam60 dUnwilling dUnwilling dUnwilling
      none).1.assignedAgent = "SpamFilter" := by
  have h := spam_in_decide_step wEmail dSpam60 dUnwilling dUnwilling dUnwilling
    none rfl (by decide) (by decide)
  exact ⟨h.1, h.2.1, h.2.2 (Or.inl rfl) (Or.inl rfl) (Or.inl rfl)⟩

/-- C9: the batch runner processes emails sequentially in input order, keeps
one result per successfully processed email in that order, and on a thrown
per-email failure logs the email's identifier, omits that email from the
results, and continues with the rest. -/
theorem batch_runner_behavior (step : Email → Except String TriageResult)
    (emails : List Email) :
    (processBatch step emails).1 =
      emails.filterMap (fun e => (step e).toOption) ∧
    (processBatch step emails).2 =
      (emails.filter (fun e => ((step e).toOption).isNone)).map Email.id := by
  induction emails with
  | nil => exact ⟨rfl, rfl⟩
  | cons e es ih =>
    unfold processBatch
    cases hstep : step e with
    | ok r =>
      simp [List.filterMap_cons, List.filter_cons, hstep, Except.toOption,
        ih.1, ih.2]
    | error err =>
      simp [List.filterMap_cons, List.filter_cons, hstep, Except.toOption,
        ih.1, ih.2]

/-- C10: the pipeline is deterministic — under any fixed assignment of
evaluator call outcomes per email, two runs of the batch entry point over the
same email list produce equal result lists (the outputs depend only on the
replies assigned to the processed emails). -/
theorem pipeline_deterministic (envOf1 envOf2 : Email → LLMEnv)
    (emails : List Email) (h : ∀ e ∈ emails, envOf1 e = envOf2 e) :
    runPipeline envOf1 emails = runPipeline envOf2 emails := by
  induction emails with
  | nil => rfl
  | cons e es ih =>
    have he : envOf1 e = envOf2 e := h e (List.mem_cons_self e es)
    have ht : (processBatch (fun x => Except.ok (triageEmail (envOf1 x) x).1)
          es).1 =
        (processBatch (fun x => Except.ok (triageEmail (envOf2 x) x).1) es).1 :=
      ih (fun x hx => h x (List.mem_cons_of_mem e hx))
    show (triageEmail (envOf1 e) e).1 ::
        (processBatch (fun x => Except.ok (triageEmail (envOf1 x) x).1) es).1 =
      (triageEmail (envOf2 e) e).1 ::
        (processBatch (fun x => Except.ok (triageEmail (envOf2 x) x).1) es).1
    rw [he, ht]

/-- A default environment in which every external call throws. -/
def wEnvDefault : LLMEnv :=
  { spamReply := none, csReply := none, salesReply := none, hrReply := none
    conflictReply := none }

/-- Witness for C10: two reply assignments that agree on the processed email
give the same pipeline output. -/
theorem pipeline_deterministic_wit :
    runPipeline (fun _ => wEnvDefault) [wEmail] =
      runPipeline (fun e => if e.id = "other" then wSpamEnv else wEnvDefault)
        [wEmail] :=
  pipeline_deterministic _ _ [wEmail]
    (fun e he => by
      rcases List.mem_singleton.mp he with rfl
      exact (if_neg (by decide)).symm)

end EmailTriage
